import Mathlib

/-!
Shallow embedding of `src/ForgedInvariant/TSCSyncer.cpp` (TSCForger), the
cross-core TSC synchronization engine: the per-core rendezvous action
(`TSCForger::sync`), the guarded orchestrator (`TSCForger::syncAll`), the
hook wrappers (`wrapXcpmUrgency`, `wrapTracePoint`,
`wrapClockGetCalendarMicrotime`), the timer callbacks, and the capability
detection (`TSCForger::init`).

Machine integers are modelled as `Nat`; the 64-bit fetch-max and the
counter increments never overflow the modelled ranges, so no explicit
reduction mod 2^64 is needed (max of values < 2^64 is < 2^64).
-/

namespace TSCSyncer

/-- Power-management trace point `kIOPMTracePointSleepCPUs = 0x18`. -/
def kIOPMTracePointSleepCPUs : Nat := 0x18

/-- Power-management trace point `kIOPMTracePointWakePlatformActions = 0x22`. -/
def kIOPMTracePointWakePlatformActions : Nat := 0x22

/-- Sync interval in milliseconds (`PERIODIC_SYNC_INTERVAL = 5000`). -/
def PERIODIC_SYNC_INTERVAL : Nat := 5000

/--
State of the `TSCForger` singleton plus the hardware registers the round
writes: the atomic fields `systemAwake`, `synchronised` (spec:
`alignmentValid`), `synchronising` (spec: `syncInProgress`),
`threadsEngaged` (spec: `enginesArrived`), `targetTSC` (spec:
`targetValue`), the capability snapshot fields `threadCount` and
`caps.amd17h`, the per-core `MSR_TSC` registers (`regs`), the
`MSR_HWCR` TSC-lock bit (`hwcrLocked`), and whether the periodic timer
event source is enabled (`timerEnabled`).
-/
structure ForgerState where
  systemAwake : Bool
  synchronised : Bool
  synchronising : Bool
  threadsEngaged : Nat
  targetTSC : Nat
  threadCount : Nat
  amd17h : Bool
  hwcrLocked : Bool
  regs : List Nat
  timerEnabled : Bool
  deriving DecidableEq, Inhabited

/-- Model of `__c11_atomic_fetch_max` on the 64-bit `targetTSC`: the shared cell
becomes the max of its current value and the candidate. -/
def fetchMax (cur cand : Nat) : Nat := max cur cand

/-- The value of `targetTSC` after every core has folded its `rdtsc64()`
reading into the zero-initialized shared cell via fetch-max
(`TSCForger::sync`, step 2), given the readings in proposal order. -/
def roundTarget (cands : List Nat) : Nat := cands.foldl fetchMax 0

/--
Aggregate effect of `TSCForger::sync` running to completion on every core
under `mp_rendezvous_no_intrs`: each core locks the frequency if
`caps.amd17h` (step 1, `lockFreq`), folds its TSC reading into `targetTSC`
via fetch-max (step 2), increments `threadsEngaged` and spins until it
equals `threadCount` (step 3), then writes the agreed `targetTSC` into its
own `MSR_TSC` register (step 4). `cands` is the list of per-core
`rdtsc64()` readings, one per participating core.
-/
def rendezvous (s : ForgerState) (cands : List Nat) : ForgerState :=
  { s with
    hwcrLocked := s.hwcrLocked || s.amd17h,
    targetTSC := roundTarget cands,
    threadsEngaged := cands.length,
    regs := cands.map fun _ => roundTarget cands }

/-- The early-return condition of `TSCForger::syncAll`:
`!systemAwake || (!timer && synchronised) || synchronising` (the last
disjunct is the old value returned by `atomic_exchange(&synchronising,
true)`; when it is already true the exchange stores the value the gate
already had). -/
def syncGuard (s : ForgerState) (timer : Bool) : Bool :=
  !s.systemAwake || (!timer && s.synchronised) || s.synchronising

/-- Model of `atomic_exchange(&this->synchronising, true)` (store part). -/
def gateClaimed (s : ForgerState) : ForgerState := { s with synchronising := true }

/-- Model of `atomic_store(&this->synchronised, false)`. -/
def markUnsynced (s : ForgerState) : ForgerState := { s with synchronised := false }

/-- Model of `atomic_store(&this->threadsEngaged, 0)`. -/
def resetEngaged (s : ForgerState) : ForgerState := { s with threadsEngaged := 0 }

/-- Model of `atomic_store(&this->targetTSC, 0)`. -/
def resetTarget (s : ForgerState) : ForgerState := { s with targetTSC := 0 }

/-- Model of `atomic_store(&this->synchronising, false)`. -/
def gateReleased (s : ForgerState) : ForgerState := { s with synchronising := false }

/-- Model of `atomic_store(&this->synchronised, true)`. -/
def markSynced (s : ForgerState) : ForgerState := { s with synchronised := true }

/-- The states after each successive atomic operation of the non-guarded
path of `TSCForger::syncAll`, in program order: gate exchange, mark
unsynchronised, reset `threadsEngaged`, reset `targetTSC`, rendezvous on
all cores, release gate, mark synchronised. -/
def syncAllStates (s : ForgerState) (cands : List Nat) : List ForgerState :=
  let s1 := gateClaimed s
  let s2 := markUnsynced s1
  let s3 := resetEngaged s2
  let s4 := resetTarget s3
  let s5 := rendezvous s4 cands
  let s6 := gateReleased s5
  let s7 := markSynced s6
  [s1, s2, s3, s4, s5, s6, s7]

/--
Model of `TSCForger::syncAll(bool timer)`. Returns the final state and whether an
actual round was performed. On the early-return path the state is exactly
the input state: the short-circuit evaluates the gate exchange only after
the first two guards fail, and an exchange on an already-held gate stores
the value it already had.
-/
def syncAll (s : ForgerState) (timer : Bool) (cands : List Nat) :
    ForgerState × Bool :=
  if syncGuard s timer then (s, false)
  else
    (markSynced (gateReleased (rendezvous
      (resetTarget (resetEngaged (markUnsynced (gateClaimed s)))) cands)), true)

/-- Model of `TSCForger::wrapXcpmUrgency`: returns the argument triple passed to the
original `_xcpm_urgency` routine, or `none` when the call is suppressed
because `synchronised` is false. -/
def wrapXcpmUrgency (synchronised : Bool) (urgency : Int)
    (rtPeriod rtDeadline : Nat) : Option (Int × Nat × Nat) :=
  if synchronised then some (urgency, rtPeriod, rtDeadline) else none

/-- Model of `TSCForger::stopTimer`: `cancelTimeout` + `disable`. -/
def stopTimer (s : ForgerState) : ForgerState := { s with timerEnabled := false }

/-- Model of `TSCForger::startTimer`: `enable` + `setTimeoutMS(PERIODIC_SYNC_INTERVAL)`. -/
def startTimer (s : ForgerState) : ForgerState := { s with timerEnabled := true }

/--
Model of `TSCForger::wrapTracePoint(void *that, uint8_t point)`. Returns the final
state, whether a synchronization round ran, and the argument pair passed
to the original `IOPMrootDomain::tracePoint` (always called, after the
switch, with the unmodified arguments).
-/
def wrapTracePoint (s : ForgerState) (that point : Nat) (cands : List Nat) :
    ForgerState × Bool × (Nat × Nat) :=
  if point = kIOPMTracePointSleepCPUs then
    (stopTimer { s with systemAwake := false, synchronised := false },
     false, (that, point))
  else if point = kIOPMTracePointWakePlatformActions then
    let r := syncAll { s with systemAwake := true } false cands
    (startTimer r.1, r.2, (that, point))
  else (s, false, (that, point))

/-- Model of `TSCForger::wrapClockGetCalendarMicrotime`: syncs, then calls the
original with the unmodified pointer arguments (returned as the third
component). -/
def wrapClockGetCalendarMicrotime (s : ForgerState) (cands : List Nat)
    (secs microsecs : Nat) : ForgerState × Bool × (Nat × Nat) :=
  let r := syncAll s false cands
  (r.1, r.2, (secs, microsecs))

/-- Model of `TSCForger::timerAction`: calls `syncAll(true)` and re-arms the timer
with `setTimeoutMS(PERIODIC_SYNC_INTERVAL)` regardless of outcome. Returns
the state, whether a round ran, and the re-arm interval. -/
def timerAction (s : ForgerState) (cands : List Nat) :
    ForgerState × Bool × Nat :=
  let r := syncAll s true cands
  (r.1, r.2, PERIODIC_SYNC_INTERVAL)

/-- Modelled from the spec: the initial values of the singleton's fields
come from `TSCSyncer.hpp`, which is not part of the sources; per the spec,
`systemAwake` is "true unless the system is mid-sleep-transition",
`alignmentValid` is false "before the first round completes", and no round
is initially in progress, with counters zero-initialized. -/
def initialForgerState (threadCount : Nat) (amd17h : Bool)
    (regs : List Nat) : ForgerState :=
  { systemAwake := true
    synchronised := false
    synchronising := false
    threadsEngaged := 0
    targetTSC := 0
    threadCount := threadCount
    amd17h := amd17h
    hwcrLocked := false
    regs := regs
    timerEnabled := false }

/-!
Spin-barrier model for `TSCForger::sync`, step 3
(`atomic_fetch_add(&threadsEngaged, 1)` followed by
`while (atomic_load(&threadsEngaged) != threadCount) {}`): the counter
starts at 0 for the round, each arriving participant adds 1, and a
participant's spin loop exits exactly when an observed counter value
equals `threadCount`. With `arrived` participants in total, the counter
takes the values `1, 2, ..., arrived` and never decreases, so the
participant that arrived `i`-th observes exactly the values
`threadsEngagedAfter k` for `i ≤ k ≤ arrived`.
-/

/-- Model of `atomic_fetch_add(&threadsEngaged, 1)` (new value). -/
def fetchAddOne (c : Nat) : Nat := c + 1

/-- Counter value after the `k`-th arrival, starting from the reset value 0. -/
def threadsEngagedAfter : Nat → Nat
  | 0 => 0
  | k + 1 => fetchAddOne (threadsEngagedAfter k)

/-- The spin loop `while (threadsEngaged != threadCount)` exits on an
observed value `c` exactly when `c = threadCount`. -/
def spinExits (threadCount c : Nat) : Bool := c == threadCount

/-- The participant that arrived `i`-th (1-indexed) out of `arrived`
total arrivals eventually leaves the barrier: some counter value it can
observe (from its own increment up to the final count) exits the loop. -/
def participantTerminates (threadCount arrived i : Nat) : Prop :=
  ∃ k, i ≤ k ∧ k ≤ arrived ∧ spinExits threadCount (threadsEngagedAfter k) = true

/-!
Interleaving model of the `synchronising` gate for concurrent `syncAll`
callers: each caller's `atomic_exchange(&synchronising, true)` is one
atomic event; a caller that reads `false` enters the round, and releases
the gate (`atomic_store(&synchronising, false)`) when its round ends.
-/

/-- A gate event: caller `i` performs the atomic exchange, or caller `i`
(if in a round) finishes it and stores `false` into the gate. -/
inductive GateEv where
  | claim (i : Nat)
  | release (i : Nat)
  deriving DecidableEq

/-- The gate plus the callers currently inside a round. -/
structure GateState where
  synchronising : Bool
  active : List Nat
  deriving DecidableEq

/-- One atomic step of the gate protocol. `claim i` is
`atomic_exchange(&synchronising, true)`: if the old value is `true` the
caller returns early and nothing changes; otherwise the caller enters the
round. `release i` is the `atomic_store(&synchronising, false)` at the end
of caller `i`'s round. -/
def gateStep (s : GateState) : GateEv → GateState
  | .claim i => if s.synchronising then s else { synchronising := true, active := i :: s.active }
  | .release i =>
    if i ∈ s.active then { synchronising := false, active := s.active.erase i } else s

/-- Run a sequence of gate events from a state. -/
def gateRun (s : GateState) (evs : List GateEv) : GateState :=
  evs.foldl gateStep s

/-- The gate starts released with no round in progress. -/
def gateInit : GateState := { synchronising := false, active := [] }

/-- Mutual-exclusion invariant: at most one caller is ever inside a round,
and the gate is only released when no round is in progress. -/
def gateInv (s : GateState) : Prop :=
  s.active.length ≤ 1 ∧ (s.synchronising = false → s.active = [])

/-- Fold the gate exchange over a list of simultaneous callers (no release
interleaved): returns the final gate value and the callers that observed
`false` and therefore perform the round. -/
def claimRound (gate : Bool) (callers : List Nat) : Bool × List Nat :=
  callers.foldl
    (fun p i => if p.1 then (true, p.2) else (true, p.2 ++ [i]))
    (gate, [])

/-!
Capability detection, `TSCForger::init` (thread-count and capability
probing only; patcher registration and timer creation have no modelled
state beyond `timerEnabled`). Each CPUID query may fail
(`CPUInfo::getCpuid` returns false), modelled by `Option`; `rdmsr64`
always returns a value.
-/

/-- Constant `CPUInfo::CPU_MODEL_PENRYN` (0x17), from the Lilu headers. -/
def CPU_MODEL_PENRYN : Nat := 0x17

/-- Enumeration `CPUInfo::CpuVendor` as used by `init`. -/
inductive CpuVendor where
  | AMD
  | Intel
  | Unknown
  deriving DecidableEq

/-- Outcomes of the hardware queries `init` performs: vendor, family and
model from `BaseDeviceInfo`, `CPUID 0x80000008` (ecx), `CPUID 1` (eax for
the AMD family probe; ebx/ecx/edx for the fallback), `CPUID 7` (ebx), and
`rdmsr64(MSR_CORE_THREAD_COUNT)`. A `none` means `getCpuid` returned
false. -/
structure HwProbe where
  cpuVendor : CpuVendor
  cpuFamily : Nat
  cpuModel : Nat
  cpuidExtCoreCountEcx : Option Nat
  cpuidVersionEax : Option Nat
  cpuidLeaf7Ebx : Option Nat
  cpuidLeaf1 : Option (Nat × Nat × Nat)
  msrCoreThreadCount : Nat
  deriving DecidableEq

/-- The fields `init` computes: `this->threadCount`, `this->caps.amd17h`,
`this->caps.tscAdjust`. -/
structure InitResult where
  threadCount : Nat
  amd17h : Bool
  tscAdjust : Bool
  deriving DecidableEq

/-- The AMD family computation on `CPUID 1` eax:
`family = version.bits.family; if (family == 0xF) family += extendedFamily`
with `family = eax[11:8]` and `extendedFamily = eax[27:20]`. -/
def amdFamily (eax : Nat) : Nat :=
  let family := (eax >>> 8) &&& 0xF
  let extendedFamily := (eax >>> 20) &&& 0xFF
  if family = 0xF then family + extendedFamily else family

/--
The vendor switch of `TSCForger::init`. `this->threadCount` and the
capability flags start zero (zero-initialized singleton). AMD: thread
count from `CPUID 0x80000008` (`(ecx & 0xFF) + 1`) and `caps.amd17h` from
the family (`>= 0x17`). Intel: `caps.tscAdjust` from `CPUID 7` ebx bit 1,
thread count from `MSR_CORE_THREAD_COUNT & 0xFFFF` on post-Penryn CPUs.
Unknown vendor: nothing is set.
-/
def initVendor (q : HwProbe) : InitResult :=
  match q.cpuVendor with
    | .AMD =>
      let tc : Nat :=
        match q.cpuidExtCoreCountEcx with
        | some ecx => (ecx &&& 0xFF) + 1
        | none => 0
      let amd : Bool :=
        match q.cpuidVersionEax with
        | some eax => decide (0x17 ≤ amdFamily eax)
        | none => false
      ⟨tc, amd, false⟩
    | .Intel =>
      let adj : Bool :=
        match q.cpuidLeaf7Ebx with
        | some ebx => decide (ebx &&& 2 ≠ 0)
        | none => false
      let tc : Nat :=
        if 6 < q.cpuFamily ∨ (q.cpuFamily = 6 ∧ CPU_MODEL_PENRYN < q.cpuModel)
        then q.msrCoreThreadCount &&& 0xFFFF
        else 0
      ⟨tc, false, adj⟩
    | .Unknown => ⟨0, false, false⟩

/-- The fallback detection of `init`: when the vendor-specific path left
`this->threadCount` at 0, query `CPUID 1`; when the HTT feature bit (bit
28 of `(ecx << 32) | edx`) is set take `(ebx >> 16) & 0xFF`, otherwise 1;
when the query fails, 1. -/
def initFallback (q : HwProbe) (r : InitResult) : InitResult :=
  if r.threadCount = 0 then
    match q.cpuidLeaf1 with
    | some (ebx, ecx, edx) =>
      let features := (ecx <<< 32) ||| edx
      { r with threadCount := if features &&& (1 <<< 28) ≠ 0 then (ebx >>> 16) &&& 0xFF else 1 }
    | none => { r with threadCount := 1 }
  else r

/-- The detection part of `TSCForger::init`: the vendor switch followed by
the fallback. -/
def initDetect (q : HwProbe) : InitResult := initFallback q (initVendor q)

/-! Helper lemmas about folded maxima (shared by several claims). -/

theorem seed_le_foldl_max (l : List Nat) (a : Nat) : a ≤ l.foldl max a := by
  induction l generalizing a with
  | nil => exact Nat.le_refl a
  | cons b t ih =>
    simp only [List.foldl_cons]
    exact Nat.le_trans (le_max_left a b) (ih (max a b))

theorem mem_le_foldl_max (l : List Nat) : ∀ a c, c ∈ l → c ≤ l.foldl max a := by
  induction l with
  | nil => intro a c hc; cases hc
  | cons b t ih =>
    intro a c hc
    simp only [List.foldl_cons]
    rcases List.mem_cons.mp hc with h | h
    · subst h
      exact Nat.le_trans (le_max_right a c) (seed_le_foldl_max t (max a c))
    · exact ih (max a b) c h

theorem foldl_max_mem (l : List Nat) : ∀ a, l.foldl max a ∈ l ∨ l.foldl max a = a := by
  induction l with
  | nil => intro a; right; rfl
  | cons b t ih =>
    intro a
    simp only [List.foldl_cons]
    rcases ih (max a b) with h | h
    · left; exact List.mem_cons_of_mem b h
    · rcases le_total a b with hab | hba
      · left; rw [h, max_eq_right hab]; exact List.mem_cons_self b t
      · right; rw [h, max_eq_left hba]

theorem roundTarget_eq_foldl (cands : List Nat) :
    roundTarget cands = cands.foldl max 0 := rfl

theorem roundTarget_mem (cands : List Nat) (hne : cands ≠ []) :
    roundTarget cands ∈ cands := by
  rw [roundTarget_eq_foldl]
  rcases foldl_max_mem cands 0 with h | h
  · exact h
  · cases cands with
    | nil => exact absurd rfl hne
    | cons b t =>
      have hb : b ≤ (b :: t).foldl max 0 :=
        mem_le_foldl_max (b :: t) 0 b (List.mem_cons_self b t)
      rw [h] at hb ⊢
      rw [Nat.le_zero.mp hb]
      exact List.mem_cons_self 0 t

/--
C1: the agreed target value after a round is the fold of fetch-max over
the candidates starting from the zero-initialized shared value; it is
invariant under the order in which participants propose, it is an upper
bound of all candidates and is itself one of them (the maximum), and after
the barrier every participant's cycle-counter register ends at exactly
that agreed value, so all participants end with an identical value.
-/
theorem C1_round_agreement (s : ForgerState) (cands cands' : List Nat)
    (hperm : List.Perm cands cands') :
    roundTarget cands = roundTarget cands' ∧
    (∀ c ∈ cands, c ≤ roundTarget cands) ∧
    (cands ≠ [] → roundTarget cands ∈ cands) ∧
    (rendezvous s cands).targetTSC = roundTarget cands ∧
    (rendezvous s cands).regs.length = cands.length ∧
    (∀ r ∈ (rendezvous s cands).regs, r = roundTarget cands) := by
  refine ⟨?_, ?_, roundTarget_mem cands, rfl, by simp [rendezvous], ?_⟩
  · rw [roundTarget_eq_foldl, roundTarget_eq_foldl]
    exact hperm.foldl_eq 0
  · intro c hc
    rw [roundTarget_eq_foldl]
    exact mem_le_foldl_max cands 0 c hc
  · intro r hr
    simp only [rendezvous, List.mem_map] at hr
    obtain ⟨a, _, ha⟩ := hr
    exact ha.symm

/-- Witness for C1 at the spec's scenario: four participants propose
{100, 150, 120, 140}; the agreed target is order-independent, bounds and
contains the candidates, and all four registers end identical. -/
theorem C1_round_agreement_witness :
    roundTarget [100, 150, 120, 140] = roundTarget [150, 100, 140, 120] ∧
    (∀ c ∈ [100, 150, 120, 140], c ≤ roundTarget [100, 150, 120, 140]) ∧
    ([100, 150, 120, 140] ≠ ([] : List Nat) →
      roundTarget [100, 150, 120, 140] ∈ [100, 150, 120, 140]) ∧
    (rendezvous (initialForgerState 4 false [0, 0, 0, 0])
      [100, 150, 120, 140]).targetTSC = roundTarget [100, 150, 120, 140] ∧
    (rendezvous (initialForgerState 4 false [0, 0, 0, 0])
      [100, 150, 120, 140]).regs.length = [100, 150, 120, 140].length ∧
    (∀ r ∈ (rendezvous (initialForgerState 4 false [0, 0, 0, 0])
      [100, 150, 120, 140]).regs, r = roundTarget [100, 150, 120, 140]) :=
  C1_round_agreement (initialForgerState 4 false [0, 0, 0, 0])
    [100, 150, 120, 140] [150, 100, 140, 120] (by decide)

/--
C2: `syncAll` performs no round exactly when the system is not awake, or
the call is non-periodic and alignment is already valid, or a round is
already in progress; a non-periodic call on a state with `synchronised`
true is always a no-op, and a periodic call attempts a round exactly when
the system is awake and the gate is free, regardless of `synchronised`.
-/
theorem C2_syncAll_guards (s : ForgerState) (timer : Bool) (cands : List Nat) :
    ((syncAll s timer cands).2 = false ↔
      (s.systemAwake = false ∨ (timer = false ∧ s.synchronised = true) ∨
        s.synchronising = true)) ∧
    (syncAll { s with synchronised := true } false cands).2 = false ∧
    (syncAll s true cands).2 = (s.systemAwake && !s.synchronising) := by
  rcases s with ⟨aw, syn, sing, te, tt, tc, a17, hw, regs, ten⟩
  cases aw <;> cases syn <;> cases sing <;> cases timer <;>
    simp [syncAll, syncGuard]

/--
C10: whenever `syncAll` returns early through any of its guards, the
state is left exactly as it was: no synchronization-state field is
changed, and the gate keeps the value it already had.
-/
theorem C10_early_return_frame (s : ForgerState) (timer : Bool)
    (cands : List Nat) (h : (syncAll s timer cands).2 = false) :
    (syncAll s timer cands).1 = s := by
  cases hg : syncGuard s timer <;> simp [syncAll, hg] at h ⊢

/-- Witness for C10: a non-periodic call on an already-synchronised awake
state returns early with the state untouched. -/
theorem C10_early_return_frame_witness :
    (syncAll { initialForgerState 2 false [5, 7] with synchronised := true }
      false [100, 150]).2 = false ∧
    (syncAll { initialForgerState 2 false [5, 7] with synchronised := true }
      false [100, 150]).1 =
      { initialForgerState 2 false [5, 7] with synchronised := true } :=
  ⟨by decide,
   C10_early_return_frame
     { initialForgerState 2 false [5, 7] with synchronised := true }
     false [100, 150] (by decide)⟩

/--
C7: the real-time urgency wrapper forwards the call to the original
computation with unmodified arguments exactly when `synchronised`
(alignment validity) is true at call time, and suppresses the call
entirely exactly when it is false.
-/
theorem C7_urgency_gate (b : Bool) (urgency : Int) (rtPeriod rtDeadline : Nat) :
    (wrapXcpmUrgency b urgency rtPeriod rtDeadline =
      some (urgency, rtPeriod, rtDeadline) ↔ b = true) ∧
    (wrapXcpmUrgency b urgency rtPeriod rtDeadline = none ↔ b = false) := by
  cases b <;> simp [wrapXcpmUrgency]

/-- C8 counterexample: the urgency wrapper with `synchronised = false`
does not invoke the original routine at all, refuting the claim that
every hooked call site invokes the original for every input. -/
theorem C8_counterexample : wrapXcpmUrgency false 0 0 0 = none := rfl

/--
C8 (amended): every wrapper that invokes the original does so with
unmodified arguments; the trace-point wrapper and the clock wrapper
always invoke the original (for every trace-point value, including ones
other than sleep and wake), while the urgency wrapper invokes the
original with unmodified arguments when `synchronised` is true and makes
no call at all otherwise.
-/
theorem C8_passthrough (s : ForgerState) (that point : Nat)
    (cands : List Nat) (secs microsecs : Nat) (b : Bool) (urgency : Int)
    (rtPeriod rtDeadline : Nat) :
    (wrapTracePoint s that point cands).2.2 = (that, point) ∧
    (wrapClockGetCalendarMicrotime s cands secs microsecs).2.2 =
      (secs, microsecs) ∧
    wrapXcpmUrgency b urgency rtPeriod rtDeadline =
      (if b then some (urgency, rtPeriod, rtDeadline) else none) := by
  refine ⟨?_, rfl, rfl⟩
  by_cases h1 : point = 24 <;> by_cases h2 : point = 34 <;>
    simp [wrapTracePoint, kIOPMTracePointSleepCPUs,
      kIOPMTracePointWakePlatformActions, h1, h2]

/-! Helper lemmas for the gate interleaving model. -/

theorem gateInv_init : gateInv gateInit := by
  constructor
  · simp [gateInit]
  · intro _; rfl

theorem gateInv_step (s : GateState) (e : GateEv) (h : gateInv s) :
    gateInv (gateStep s e) := by
  obtain ⟨hlen, hrel⟩ := h
  cases e with
  | claim i =>
    by_cases hg : s.synchronising = true
    · simpa [gateStep, hg] using ⟨hlen, hrel⟩
    · have hg' : s.synchronising = false := by
        cases hs : s.synchronising
        · rfl
        · exact absurd hs hg
      constructor
      · simp [gateStep, hg', hrel hg']
      · intro hfalse
        simp [gateStep, hg'] at hfalse
  | release i =>
    by_cases hm : i ∈ s.active
    · constructor
      · simp only [gateStep, if_pos hm]
        exact Nat.le_trans (List.length_erase_le i s.active) hlen
      · intro _
        simp only [gateStep, if_pos hm]
        cases ha : s.active with
        | nil => rw [ha] at hm; cases hm
        | cons x t =>
          have hx : t = [] := by
            rw [ha] at hlen
            exact List.length_eq_zero.mp
              (Nat.le_zero.mp (Nat.succ_le_succ_iff.mp hlen))
          subst hx
          have hxi : i = x := by
            rw [ha] at hm
            simpa using hm
          simp [← hxi]
    · simpa [gateStep, hm] using ⟨hlen, hrel⟩

theorem gateInv_run_from (s : GateState) (h : gateInv s) :
    ∀ evs : List GateEv, gateInv (gateRun s evs) := by
  intro evs
  induction evs generalizing s with
  | nil => exact h
  | cons e t ih =>
    simpa [gateRun, List.foldl_cons] using ih (gateStep s e) (gateInv_step s e h)

theorem claimRound_keeps_winners (callers : List Nat) (acc : List Nat) :
    callers.foldl (fun p i => if p.1 then (true, p.2) else (true, p.2 ++ [i]))
      ((true, acc) : Bool × List Nat) = (true, acc) := by
  induction callers with
  | nil => rfl
  | cons c t ih => simpa [List.foldl_cons] using ih

/--
C3: at most one round is ever in progress at a time — along every
interleaving of atomic gate exchanges and releases starting from the
released gate, at most one caller is inside a round, and the gate reads
released only when no caller is inside — and when K callers race on the
free gate with no release in between, exactly the first exchange observes
`false`, so exactly one caller performs the round and the other K−1 return
early having observed the gate already held.
-/
theorem C3_gate_mutual_exclusion :
    (∀ evs : List GateEv, (gateRun gateInit evs).active.length ≤ 1 ∧
      ((gateRun gateInit evs).synchronising = false →
        (gateRun gateInit evs).active = [])) ∧
    (∀ (i : Nat) (rest : List Nat),
      claimRound false (i :: rest) = (true, [i]) ∧
      (claimRound false (i :: rest)).2.length = 1) := by
  constructor
  · intro evs
    exact gateInv_run_from gateInit gateInv_init evs
  · intro i rest
    have h : claimRound false (i :: rest) = (true, [i]) := by
      simp only [claimRound, List.foldl_cons]
      exact claimRound_keeps_winners rest [i]
    exact ⟨h, by rw [h]; rfl⟩

/-- Witness for C3: three callers race on the free gate; at most one is in
a round, and caller 1 alone wins the exchange. -/
theorem C3_gate_mutual_exclusion_witness :
    (gateRun gateInit
      [GateEv.claim 1, GateEv.claim 2, GateEv.claim 3]).active.length ≤ 1 ∧
    claimRound false [1, 2, 3] = (true, [1]) :=
  ⟨(C3_gate_mutual_exclusion.1
      [GateEv.claim 1, GateEv.claim 2, GateEv.claim 3]).1,
   (C3_gate_mutual_exclusion.2 1 [2, 3]).1⟩

/-! Helper lemmas for the spin-barrier model. -/

theorem threadsEngagedAfter_eq (k : Nat) : threadsEngagedAfter k = k := by
  induction k with
  | zero => rfl
  | succ n ih => simp [threadsEngagedAfter, fetchAddOne, ih]

theorem participantTerminates_iff (threadCount arrived i : Nat) :
    participantTerminates threadCount arrived i ↔
      i ≤ threadCount ∧ threadCount ≤ arrived := by
  constructor
  · rintro ⟨k, hik, hka, hexit⟩
    have hk : k = threadCount := by
      simpa [spinExits, threadsEngagedAfter_eq] using hexit
    exact ⟨hk ▸ hik, hk ▸ hka⟩
  · rintro ⟨h1, h2⟩
    exact ⟨threadCount, h1, h2, by simp [spinExits, threadsEngagedAfter_eq]⟩

/--
C5: for every configured thread count N ≥ 1 and number of arrivals M ≥ 1,
every participant that arrived leaves the spin barrier (the round
completes) if and only if exactly N participants arrived; and when fewer
than N participants arrive, every participant that did arrive spins
forever.
-/
theorem C5_barrier_termination (threadCount arrived : Nat)
    (hN : 1 ≤ threadCount) (hM : 1 ≤ arrived) :
    ((∀ i, 1 ≤ i → i ≤ arrived →
        participantTerminates threadCount arrived i) ↔
      arrived = threadCount) ∧
    (arrived < threadCount →
      ∀ i, 1 ≤ i → i ≤ arrived →
        ¬ participantTerminates threadCount arrived i) := by
  constructor
  · constructor
    · intro hall
      have hlast := (participantTerminates_iff threadCount arrived arrived).mp
        (hall arrived hM (Nat.le_refl arrived))
      have hfirst := (participantTerminates_iff threadCount arrived 1).mp
        (hall 1 (Nat.le_refl 1) hM)
      exact Nat.le_antisymm hlast.1 hfirst.2
    · intro heq i h1 hi
      exact (participantTerminates_iff threadCount arrived i).mpr
        ⟨heq ▸ hi, heq ▸ Nat.le_refl arrived⟩
  · intro hlt i _ _ hterm
    have := (participantTerminates_iff threadCount arrived i).mp hterm
    exact absurd this.2 (Nat.not_le_of_lt hlt)

/-- Witness for C5 at N = 2: with exactly 2 arrivals every participant
passes the barrier (2 = 2), and with 1 < 2 arrivals the single arrived
participant spins forever. -/
theorem C5_barrier_termination_witness :
    (((∀ i, 1 ≤ i → i ≤ 2 → participantTerminates 2 2 i) ↔ 2 = 2) ∧
      (2 < 2 → ∀ i, 1 ≤ i → i ≤ 2 → ¬ participantTerminates 2 2 i)) ∧
    (((∀ i, 1 ≤ i → i ≤ 1 → participantTerminates 2 1 i) ↔ 1 = 2) ∧
      (1 < 2 → ∀ i, 1 ≤ i → i ≤ 1 → ¬ participantTerminates 2 1 i)) :=
  ⟨C5_barrier_termination 2 2 (by decide) (by decide),
   C5_barrier_termination 2 1 (by decide) (by decide)⟩

/--
C4: whenever `syncAll` proceeds past its guards, the resulting state is
obtained by claiming the gate, marking alignment invalid, resetting
`threadsEngaged` and `targetTSC` to zero, running the rendezvous on every
core, releasing the gate, and only then marking alignment valid — in that
order; every intermediate state from the mark-invalid store through the
gate release (which brackets the whole rendezvous) has `synchronised =
false`, the gate is held across the reset and the rendezvous, and the
initial module state has `synchronised = false` (alignment invalid before
the first round completes).
-/
theorem C4_round_ordering (s : ForgerState) (timer : Bool) (cands : List Nat)
    (h : (syncAll s timer cands).2 = true) :
    (syncAll s timer cands).1 =
      markSynced (gateReleased (rendezvous
        (resetTarget (resetEngaged (markUnsynced (gateClaimed s)))) cands)) ∧
    (resetTarget (resetEngaged (markUnsynced (gateClaimed s)))).threadsEngaged = 0 ∧
    (resetTarget (resetEngaged (markUnsynced (gateClaimed s)))).targetTSC = 0 ∧
    (∀ st ∈ ((syncAllStates s cands).drop 1).take 5, st.synchronised = false) ∧
    (∀ st ∈ (syncAllStates s cands).take 5, st.synchronising = true) ∧
    (syncAll s timer cands).1.synchronised = true ∧
    (syncAll s timer cands).1.synchronising = false ∧
    (∀ tc a17 regs, (initialForgerState tc a17 regs).synchronised = false) := by
  have hg : syncGuard s timer = false := by
    cases hgg : syncGuard s timer
    · rfl
    · simp [syncAll, hgg] at h
  refine ⟨by simp [syncAll, hg], rfl, rfl, ?_, ?_, ?_, ?_, fun tc a17 regs => rfl⟩
  · intro st hst
    simp only [syncAllStates, List.drop, List.take, List.mem_cons,
      List.not_mem_nil, or_false] at hst
    rcases hst with rfl | rfl | rfl | rfl | rfl <;>
      simp [markUnsynced, resetEngaged, resetTarget, rendezvous,
        gateReleased, gateClaimed]
  · intro st hst
    simp only [syncAllStates, List.take, List.mem_cons,
      List.not_mem_nil, or_false] at hst
    rcases hst with rfl | rfl | rfl | rfl | rfl <;>
      simp [markUnsynced, resetEngaged, resetTarget, rendezvous,
        gateReleased, gateClaimed]
  · simp [syncAll, hg, markSynced]
  · simp [syncAll, hg, markSynced, gateReleased]

/-- Witness for C4: a first non-periodic round from the initial state with
two cores proposing {100, 150}. -/
theorem C4_round_ordering_witness :
    (syncAll (initialForgerState 2 false [0, 0]) false [100, 150]).1 =
      markSynced (gateReleased (rendezvous
        (resetTarget (resetEngaged (markUnsynced
          (gateClaimed (initialForgerState 2 false [0, 0]))))) [100, 150])) ∧
    (resetTarget (resetEngaged (markUnsynced
      (gateClaimed (initialForgerState 2 false [0, 0]))))).threadsEngaged = 0 ∧
    (resetTarget (resetEngaged (markUnsynced
      (gateClaimed (initialForgerState 2 false [0, 0]))))).targetTSC = 0 ∧
    (∀ st ∈ ((syncAllStates (initialForgerState 2 false [0, 0])
        [100, 150]).drop 1).take 5, st.synchronised = false) ∧
    (∀ st ∈ (syncAllStates (initialForgerState 2 false [0, 0])
        [100, 150]).take 5, st.synchronising = true) ∧
    (syncAll (initialForgerState 2 false [0, 0])
      false [100, 150]).1.synchronised = true ∧
    (syncAll (initialForgerState 2 false [0, 0])
      false [100, 150]).1.synchronising = false ∧
    (∀ tc a17 regs, (initialForgerState tc a17 regs).synchronised = false) :=
  C4_round_ordering (initialForgerState 2 false [0, 0]) false [100, 150]
    (by decide)

/--
C6: after a "sleeping cores" trace point, `systemAwake`, `synchronised`
and the timer are all off, the periodic timer action performs no round
and leaves the state untouched; and after a subsequent "wake platform
actions" trace point (when no round was in progress across the sleep), a
round runs synchronously inside the wrapper, and afterwards the system is
awake, alignment is valid and the periodic timer is running again.
-/
theorem C6_power_transitions (s : ForgerState) (that that2 : Nat)
    (c1 c2 c3 : List Nat) :
    (wrapTracePoint s that kIOPMTracePointSleepCPUs c1).1.systemAwake = false ∧
    (wrapTracePoint s that kIOPMTracePointSleepCPUs c1).1.synchronised = false ∧
    (wrapTracePoint s that kIOPMTracePointSleepCPUs c1).1.timerEnabled = false ∧
    (timerAction (wrapTracePoint s that kIOPMTracePointSleepCPUs c1).1 c2).2.1 =
      false ∧
    (timerAction (wrapTracePoint s that kIOPMTracePointSleepCPUs c1).1 c2).1 =
      (wrapTracePoint s that kIOPMTracePointSleepCPUs c1).1 ∧
    (s.synchronising = false →
      (wrapTracePoint (wrapTracePoint s that kIOPMTracePointSleepCPUs c1).1
        that2 kIOPMTracePointWakePlatformActions c3).2.1 = true ∧
      (wrapTracePoint (wrapTracePoint s that kIOPMTracePointSleepCPUs c1).1
        that2 kIOPMTracePointWakePlatformActions c3).1.systemAwake = true ∧
      (wrapTracePoint (wrapTracePoint s that kIOPMTracePointSleepCPUs c1).1
        that2 kIOPMTracePointWakePlatformActions c3).1.synchronised = true ∧
      (wrapTracePoint (wrapTracePoint s that kIOPMTracePointSleepCPUs c1).1
        that2 kIOPMTracePointWakePlatformActions c3).1.timerEnabled = true) := by
  rcases s with ⟨aw, syn, sing, te, tt, tc, a17, hw, regs, ten⟩
  refine ⟨rfl, rfl, rfl, ?_, ?_, ?_⟩
  · simp [wrapTracePoint, kIOPMTracePointSleepCPUs,
      kIOPMTracePointWakePlatformActions, stopTimer, timerAction, syncAll,
      syncGuard]
  · simp [wrapTracePoint, kIOPMTracePointSleepCPUs,
      kIOPMTracePointWakePlatformActions, stopTimer, timerAction, syncAll,
      syncGuard]
  · intro hsync
    simp only at hsync
    subst hsync
    simp [wrapTracePoint, kIOPMTracePointSleepCPUs,
      kIOPMTracePointWakePlatformActions, stopTimer, startTimer, syncAll,
      syncGuard, markSynced, gateReleased, rendezvous, resetTarget,
      resetEngaged, markUnsynced, gateClaimed]

/-- Witness for C6: sleep then wake from a state with no round in flight. -/
theorem C6_power_transitions_witness :
    (initialForgerState 2 false [0, 0]).synchronising = false ∧
    (wrapTracePoint (wrapTracePoint (initialForgerState 2 false [0, 0])
      7 kIOPMTracePointSleepCPUs []).1
      9 kIOPMTracePointWakePlatformActions [100, 150]).2.1 = true ∧
    (wrapTracePoint (wrapTracePoint (initialForgerState 2 false [0, 0])
      7 kIOPMTracePointSleepCPUs []).1
      9 kIOPMTracePointWakePlatformActions [100, 150]).1.synchronised = true :=
  ⟨by decide,
   ((C6_power_transitions (initialForgerState 2 false [0, 0]) 7 9 [] []
      [100, 150]).2.2.2.2.2 (by decide)).1,
   (((C6_power_transitions (initialForgerState 2 false [0, 0]) 7 9 [] []
      [100, 150]).2.2.2.2.2 (by decide)).2.2).1⟩

/-- C9 counterexample: when the vendor is unrecognised and the fallback
`CPUID 1` query reports the HTT feature bit with a zero
logical-processor-count byte (`ebx[23:16] = 0`), detection completes with
`threadCount = 0`, refuting the claim that every possible query outcome
yields a thread count ≥ 1. -/
theorem C9_counterexample :
    (initDetect ⟨CpuVendor.Unknown, 0, 0, none, none, none,
      some (0, 0, 268435456), 0⟩).threadCount = 0 := by decide

/--
C9 (amended): detection never fails and always completes; the capability
flags are false whenever the vendor is unrecognised, and when no detection
information is available at all the result is exactly thread count 1 with
both capabilities false; the thread count is ≥ 1 for every query outcome
in which the fallback `CPUID 1` leaf, when it succeeds with the HTT bit
set, reports a nonzero logical-processor-count byte (on the remaining
outcome — HTT set with a zero count byte — the code produces 0).
-/
theorem C9_detection (q : HwProbe)
    (hbyte : ∀ ebx ecx edx, q.cpuidLeaf1 = some (ebx, ecx, edx) →
      ((ecx <<< 32) ||| edx) &&& (1 <<< 28) ≠ 0 → (ebx >>> 16) &&& 0xFF ≠ 0) :
    1 ≤ (initDetect q).threadCount ∧
    (q.cpuVendor = CpuVendor.Unknown →
      (initDetect q).amd17h = false ∧ (initDetect q).tscAdjust = false) ∧
    (∀ fam model msr,
      initDetect ⟨CpuVendor.Unknown, fam, model, none, none, none, none, msr⟩ =
        ⟨1, false, false⟩) := by
  refine ⟨?_, ?_, fun _ _ _ => rfl⟩
  · unfold initDetect initFallback
    by_cases h0 : (initVendor q).threadCount = 0
    · rw [if_pos h0]
      cases hl : q.cpuidLeaf1 with
      | none => simp
      | some p =>
        obtain ⟨ebx, ecx, edx⟩ := p
        show 1 ≤ (if ((ecx <<< 32) ||| edx) &&& (1 <<< 28) ≠ 0
          then (ebx >>> 16) &&& 0xFF else 1)
        by_cases hbit : ((ecx <<< 32) ||| edx) &&& (1 <<< 28) ≠ 0
        · rw [if_pos hbit]
          exact Nat.pos_of_ne_zero (hbyte ebx ecx edx hl hbit)
        · rw [if_neg hbit]
    · rw [if_neg h0]
      exact Nat.pos_of_ne_zero h0
  · intro hu
    have hv : initVendor q = ⟨0, false, false⟩ := by
      unfold initVendor
      rw [hu]
    unfold initDetect initFallback
    rw [hv]
    cases hl : q.cpuidLeaf1 with
    | none => simp
    | some p =>
      obtain ⟨ebx, ecx, edx⟩ := p
      by_cases hbit : ((ecx <<< 32) ||| edx) &&& (1 <<< 28) ≠ 0 <;>
        simp [hbit]

/-- Witness for C9: with no detection information at all, the result is
the safe default. -/
theorem C9_detection_witness :
    1 ≤ (initDetect ⟨CpuVendor.Unknown, 0, 0, none, none, none, none,
      0⟩).threadCount ∧
    ((⟨CpuVendor.Unknown, 0, 0, none, none, none, none, 0⟩ :
        HwProbe).cpuVendor = CpuVendor.Unknown →
      (initDetect ⟨CpuVendor.Unknown, 0, 0, none, none, none, none,
        0⟩).amd17h = false ∧
      (initDetect ⟨CpuVendor.Unknown, 0, 0, none, none, none, none,
        0⟩).tscAdjust = false) ∧
    (∀ fam model msr,
      initDetect ⟨CpuVendor.Unknown, fam, model, none, none, none, none, msr⟩ =
        ⟨1, false, false⟩) :=
  C9_detection ⟨CpuVendor.Unknown, 0, 0, none, none, none, none, 0⟩
    (fun _ _ _ hsome _ => Option.noConfusion hsome)

end TSCSyncer
